import Mathlib

/-!
Verification of the authorization and credential-token subsystem of the
mv-ecom-admin-api repository, shallowly embedded in Lean.

JavaScript strings are modelled as lists of characters (`JStr`), the
colon-splitting of `String.prototype.split`, decimal rendering of integer
timestamps and `parseInt` are modelled explicitly, and the cryptographic
primitives (HMAC-SHA256, bcrypt hashing) together with the deterministic
JSON serialization of claim objects are abstracted as function parameters:
every theorem quantifies over them, so it holds for the real primitives in
particular.

The file is organized as definitions first (the embedding of the source),
then theorems about them.
-/

namespace MvEcom

/-- JavaScript strings, modelled as lists of characters. -/
abbrev JStr := List Char

/-! ### Splitting on a separator character

Models `String.prototype.split(sep)` for a one-character separator, which
is how both token codecs and the bearer-header parser cut strings apart.
-/

/-- Auxiliary splitter: returns the segment before the first separator and
the list of remaining segments. -/
def jsSplitAux (sep : Char) : JStr → JStr × List JStr
  | [] => ([], [])
  | c :: rest =>
    let r := jsSplitAux sep rest
    if c = sep then ([], r.1 :: r.2) else (c :: r.1, r.2)

/-- Models `s.split(sep)` of JavaScript: the list of separator-delimited
segments (never empty; splitting the empty string yields one empty segment,
as in JavaScript). -/
def jsSplit (sep : Char) (s : JStr) : List JStr :=
  (jsSplitAux sep s).1 :: (jsSplitAux sep s).2

/-! ### Decimal rendering of integers and `parseInt`

The reset-password token embeds its expiry as an epoch-milliseconds
integer, rendered in decimal by JavaScript template-string interpolation
and read back with `parseInt`.
-/

/-- Value of a most-significant-first decimal digit list. -/
def digitsVal (ds : List Nat) : Nat := ds.foldl (fun a d => 10 * a + d) 0

/-- Fuel-driven decimal digit expansion (most significant digit first). -/
def natDigitsAux : Nat → Nat → List Nat
  | 0, _ => []
  | fuel + 1, n => if n < 10 then [n] else natDigitsAux fuel (n / 10) ++ [n % 10]

/-- Decimal digits of a natural number, most significant first. -/
def natDigits (n : Nat) : List Nat := natDigitsAux (n + 1) n

/-- The character for a decimal digit value. -/
def digitChar (d : Nat) : Char := Char.ofNat (48 + d)

/-- Decimal character rendering of a natural number. -/
def natToChars (n : Nat) : JStr := (natDigits n).map digitChar

/-- Decimal character rendering of an integer (as JavaScript renders an
integer-valued number into a template string). -/
def intToChars (i : Int) : JStr :=
  if i < 0 then '-' :: natToChars (-i).toNat else natToChars i.toNat

/-- Digit value of a character, if it is a decimal digit. -/
def charToDigitVal (c : Char) : Option Nat :=
  if 48 ≤ c.toNat ∧ c.toNat ≤ 57 then some (c.toNat - 48) else none

/-- Longest decimal-digit prefix of a string, as digit values, together
with the unconsumed remainder. -/
def takeDigits : JStr → List Nat × JStr
  | [] => ([], [])
  | c :: rest =>
    match charToDigitVal c with
    | some d => (d :: (takeDigits rest).1, (takeDigits rest).2)
    | none => ([], c :: rest)

/-- Parses the longest decimal-digit prefix, failing (NaN) when there is
none. -/
def parseDigits (s : JStr) : Option Nat :=
  match takeDigits s with
  | ([], _) => none
  | (ds, _) => some (digitsVal ds)

/-- Models `parseInt(s)` of JavaScript on the inputs that occur in token
positions: an optional sign followed by the longest decimal-digit prefix;
`none` models NaN. -/
def parseIntJS (s : JStr) : Option Int :=
  match s with
  | [] => none
  | c :: rest =>
    if c = '-' then (parseDigits rest).map (fun n => -(n : Int))
    else if c = '+' then (parseDigits rest).map (fun n => (n : Int))
    else (parseDigits (c :: rest)).map (fun n => (n : Int))

/-! ### Data model

Enumerations and entities from `models/enums.ts`, `models/User.ts`,
`models/VendorUser.ts` and `models/Vendor.ts`; only the columns the
authorization core reads are carried. -/

/-- Global role of an identity (`Role` in `models/enums.ts`). -/
inductive Role where
  | ADMIN
  | VENDOR
  deriving DecidableEq, Repr

/-- Per-tenant role (`VendorRole` in `models/enums.ts`). -/
inductive VendorRole where
  | ADMIN
  | ANALYST
  | VETTER
  deriving DecidableEq, Repr

/-- Tenant lifecycle state (`VendorState` in `models/enums.ts`). -/
inductive VendorState where
  | NORMAL
  | SUBSCRIPTION_REQUIRED
  | SUBSCRIPTION_RENEW_FAILED
  | LIMIT_EXCEEDED
  deriving DecidableEq, Repr

/-- Tenant type (`VendorType` in `models/enums.ts`). -/
inductive VendorType where
  | INTERNAL
  | EXTERNAL
  deriving DecidableEq, Repr

/-- An identity (`User` entity); the columns read by the authorization and
token code. -/
structure User where
  id : JStr
  email : JStr
  role : Role
  invitationAccepted : Bool
  deriving DecidableEq, Repr

/-- A tenant membership (`VendorUser` entity, composite key
`(vendorId, userId)`). -/
structure VendorUser where
  vendorId : JStr
  userId : JStr
  role : VendorRole
  invitationAccepted : Bool
  deriving DecidableEq, Repr

/-- Tenant settings (`VendorSettings` entity); only the limit columns. -/
structure VendorSettings where
  userLimit : Nat
  productLimit : Nat
  deriving DecidableEq, Repr

/-- A tenant (`Vendor` entity). -/
structure Vendor where
  id : JStr
  name : JStr
  type : VendorType
  state : VendorState
  settings : VendorSettings
  deriving DecidableEq, Repr

/-- Error values produced through the Boom library: each constructor is one
of the factory functions the source calls; `forbidden` is sometimes called
without a message. -/
inductive BoomError where
  | unauthorized (message : String)
  | forbidden (message : Option String)
  | conflict (message : String)
  | notFound (message : String)
  deriving DecidableEq, Repr

/-- Recognizes the Unauthorized (HTTP 401) error class. -/
def BoomError.isUnauthorized : BoomError → Bool
  | .unauthorized _ => true
  | _ => false

/-! ### Reset-password token codec (`services/resetPasswordToken.ts`)

The HMAC-SHA256 primitive keyed with the configured secret and the
deterministic `JSON.stringify` of the claim object `{email, expiry}` are
abstracted as parameters `hmac` (applied to the serialized claim) and
`serialize`; a `none` date models an invalid JavaScript `Date` (NaN
timestamp). The issuance-time clock reading and the configured TTL are the
parameters `now` and `ttl`. -/

/-- The verified reset-password claim (`ResetPasswordClaims`): the email
and the parsed expiry `Date` (none models an invalid date). -/
structure ResetClaims where
  email : JStr
  expiry : Option Int
  deriving DecidableEq, Repr

/-- Models the JavaScript comparison `expiryDate < new Date()`: numeric
comparison of timestamps, false whenever the date is invalid (NaN). -/
def jsDateLt (expiryDate : Option Int) (now : Int) : Bool :=
  match expiryDate with
  | none => false
  | some t => decide (t < now)

/-- Embeds `generateResetPasswordToken(user)`: the expiry is
`now + ttl` epoch milliseconds, the signature is the keyed digest of the
serialized claim, and the token is `email:expiryMs:signature`. -/
def generateResetPasswordToken (hmac : JStr → JStr)
    (serialize : JStr → Option Int → JStr) (now ttl : Int) (user : User) : JStr :=
  let expiryMs : Int := now + ttl
  let signature := hmac (serialize user.email (some expiryMs))
  user.email ++ ':' :: (intToChars expiryMs ++ ':' :: signature)

/-- Embeds `verifyResetPasswordToken(token)`: split on colons, demand
exactly three parts, reject when the parsed expiry date is before `now`,
recompute the digest over the parsed email and expiry and reject on
mismatch. The `typeof token` guard of the source is vacuous here because
the input is already a string. -/
def verifyResetPasswordToken (hmac : JStr → JStr)
    (serialize : JStr → Option Int → JStr) (now : Int) (token : JStr) :
    Except BoomError ResetClaims :=
  let parts := jsSplit ':' token
  if parts.length ≠ 3 then .error (.unauthorized "Token is not valid")
  else
    let email := parts.headD []
    let expiryMs := (parts.drop 1).headD []
    let signature := (parts.drop 2).headD []
    let expiryDate := parseIntJS expiryMs
    if jsDateLt expiryDate now then .error (.unauthorized "Token is not valid")
    else
      let verificationSignature := hmac (serialize email expiryDate)
      if verificationSignature ≠ signature then
        .error (.unauthorized "Token is not valid")
      else .ok { email := email, expiry := expiryDate }

/-- The expiry a three-part token embeds in its middle segment, if any. -/
def embeddedExpiry (token : JStr) : Option Int :=
  let parts := jsSplit ':' token
  if parts.length = 3 then parseIntJS ((parts.drop 1).headD []) else none

/-! ### Invitation token codec

`services/invitationToken.ts` (issuance) and
`middlewares/authorizeInvitation.ts` (verification). The bcrypt digest is
abstracted as a function parameter `bhash` on serialized claims, with
`bcrypt.compare(s, h)` modelled as `bhash s == h`; the deterministic
`JSON.stringify` of the claims object is the parameter `serializeInv`. -/

/-- Claim type tag (`ClaimType` in `services/claims.ts`). -/
inductive ClaimType where
  | AUTH
  | INVITATION
  deriving DecidableEq, Repr

/-- String values of the `ClaimType` enum in `services/claims.ts`:
`AUTH = 'auth'` and `INVITATION = 'invitation'`, so the invitation token
carries the literal prefix `invitation`. -/
def claimTypeStr : ClaimType → JStr
  | .AUTH => "auth".toList
  | .INVITATION => "invitation".toList

/-- Invitation claims (`InvitationClaims` in `services/claims.ts`): claim
type, subject user id and role snapshot. -/
structure InvitationClaims where
  type : ClaimType
  userId : JStr
  role : Role
  deriving DecidableEq, Repr

/-- Embeds `generateInvitationToken(user)`: bcrypt-digest the serialized
claims `{type: INVITATION, userId, role}` and produce
`invitation:email:digest`. -/
def generateInvitationToken (bhash : JStr → JStr)
    (serializeInv : InvitationClaims → JStr) (user : User) : JStr :=
  let claims : InvitationClaims :=
    { type := .INVITATION, userId := user.id, role := user.role }
  let token := bhash (serializeInv claims)
  claimTypeStr claims.type ++ ':' :: (user.email ++ ':' :: token)

/-- Embeds the `authorizeInvitation()` middleware body: `findByEmail`
models the identity store behind `findUserByEmail` (which throws NotFound
when the store misses); the `catch (err) { next(err) }` wrapper forwards
any thrown error unchanged, which the `Except` error channel captures
directly. A `none` token models a missing or non-string `req.query.token`. -/
def authorizeInvitation (bhash : JStr → JStr)
    (serializeInv : InvitationClaims → JStr) (findByEmail : JStr → Option User)
    (token : Option JStr) : Except BoomError User :=
  match token with
  | none => .error (.unauthorized "Token is not valid")
  | some t =>
    let parts := jsSplit ':' t
    if parts.length ≠ 3 then .error (.unauthorized "Token is not valid")
    else
      let email := (parts.drop 1).headD []
      let hash := (parts.drop 2).headD []
      match findByEmail email with
      | none => .error (.notFound "User with this email does not exist")
      | some user =>
        if user.invitationAccepted then
          .error (.conflict "Invitation already accepted")
        else
          let claims : InvitationClaims :=
            { type := .INVITATION, userId := user.id, role := user.role }
          if bhash (serializeInv claims) == hash then .ok user
          else .error (.unauthorized "Token is not valid")

/-! ### Tenant membership role check and the authorization middleware

From `services/users.ts` (`checkVendorUserRole`) and
`middlewares/authorize.ts` (`authorize`). The repository lookups behind
`verifyAuthToken`, `findUserByID`, `findVendorUser` and `getUserVendors`
are collected into an `AuthEnv` of collaborator functions; the service
functions throw NotFound on a missing row, modelled by `Option`. -/

/-- A TypeScript optional single-or-array argument
(`T | T[]`, possibly absent), as taken by `authorize` and
`checkVendorUserRole`. -/
inductive ArgOpt (α : Type) where
  | undef
  | single (a : α)
  | list (l : List α)

/-- The normalization both functions perform on such arguments: absent
becomes the empty array, a single (truthy) value becomes a one-element
array, an array stays itself. -/
def normalizeArg {α : Type} : ArgOpt α → List α
  | .undef => []
  | .single a => [a]
  | .list l => l

/-- Embeds `checkVendorUserRole(allowedRoles, vendorUsers, vendorId,
userId)`: normalize the allowed roles, keep the memberships matching both
ids whose role is allowed, and report whether any survive. -/
def checkVendorUserRole (allowedRoles : ArgOpt VendorRole)
    (vendorUsers : List VendorUser) (vendorId userId : JStr) : Bool :=
  let ar := normalizeArg allowedRoles
  let filteredVendorUsers := vendorUsers.filter (fun vendorUser =>
    vendorUser.vendorId == vendorId && vendorUser.userId == userId &&
      ar.contains vendorUser.role)
  decide (filteredVendorUsers.length > 0)

/-- The session-token claims the middleware consumes; only `userId` is
read. -/
structure AuthClaims where
  userId : JStr
  deriving DecidableEq, Repr

/-- Collaborator functions the middleware calls: session-token
verification (`none` models a verification throw), identity lookup by id,
membership lookup by tenant and user, and the list of all memberships of a
user. -/
structure AuthEnv where
  verifyAuthToken : JStr → Option AuthClaims
  findUserById : JStr → Option User
  findVendorUser : JStr → JStr → Option VendorUser
  getUserVendors : JStr → List VendorUser

/-- The request fields the middleware reads: the authorization header and
the tenant id route parameter (absent on tenant-unscoped routes). -/
structure Request where
  authorization : Option JStr
  clientId : Option JStr

/-- Outcome of running the middleware: either `next()` was called with no
argument (success, with the identity and, when loaded, its memberships
attached to the request) or with an error. -/
inductive AuthResult where
  | success (user : User) (vendorUsers : Option (List VendorUser))
  | failure (e : BoomError)
  deriving DecidableEq, Repr

/-- JavaScript truthiness of an optional string (`undefined` and the empty
string are falsy). -/
def jsTruthy (s : Option JStr) : Bool :=
  match s with
  | none => false
  | some t => !t.isEmpty

/-- Lower-cases a string character-wise, as `toLowerCase` does on the
ASCII header text involved. -/
def jsToLower (s : JStr) : JStr := s.map Char.toLower

/-- Bearer-token extraction of the middleware: split the authorization
header (defaulted to the empty string) on spaces and accept exactly
`Bearer <token>`; a missing or empty token is reported as
`Unauthorized: Token required` by the caller. -/
def extractBearerToken (req : Request) : Option JStr :=
  let authheader := jsSplit ' ' (req.authorization.getD [])
  if authheader.length = 2 && jsToLower (authheader.headD []) == "bearer".toList
  then some ((authheader.drop 1).headD [])
  else none

/-- The `try` block of the middleware handler: verify the session token,
resolve the identity, apply the global invitation-acceptance gate and the
tenant invitation-acceptance gate. A throw anywhere in the block - token
verification failure, identity lookup NotFound, membership lookup NotFound
- is caught by the `catch` and replaced by
`Unauthorized: This token is unauthorized`; the Forbidden outcomes are
produced by `return next(...)` inside the block and are not rewritten. -/
def authorizeTryBlock (allowPendingClientInvitation : Bool) (env : AuthEnv)
    (req : Request) (t : JStr) : Except BoomError User :=
  match env.verifyAuthToken t with
  | none => .error (.unauthorized "This token is unauthorized")
  | some claims =>
    match env.findUserById claims.userId with
    | none => .error (.unauthorized "This token is unauthorized")
    | some user =>
      if !user.invitationAccepted then
        .error (.forbidden (some "Invitation not accepted yet"))
      else
        if !allowPendingClientInvitation && user.role == Role.VENDOR &&
            jsTruthy req.clientId then
          match env.findVendorUser (req.clientId.getD []) user.id with
          | none => .error (.unauthorized "This token is unauthorized")
          | some clientUser =>
            if !clientUser.invitationAccepted then
              .error (.forbidden (some "Invitation not accepted yet"))
            else .ok user
        else .ok user

/-- The request handler returned by `authorize` (roles already
normalized): bearer extraction, the `try` block, then the global role
check, then - only for VENDOR identities - membership loading and the
tenant role check. When the tenant id route parameter is absent,
`checkVendorUserRole` compares string ids against `undefined`, which
matches no membership. -/
def authorizeHandler (roles : List Role) (clientRoles : List VendorRole)
    (allowPendingClientInvitation : Bool) (env : AuthEnv) (req : Request) :
    AuthResult :=
  match extractBearerToken req with
  | none => .failure (.unauthorized "Token required")
  | some t =>
    if t.isEmpty then .failure (.unauthorized "Token required")
    else
      match authorizeTryBlock allowPendingClientInvitation env req t with
      | .error e => .failure e
      | .ok user =>
        if roles.isEmpty then .success user none
        else if !roles.contains user.role then .failure (.forbidden none)
        else if user.role != Role.VENDOR then .success user none
        else
          let vendorUsers := env.getUserVendors user.id
          if clientRoles.isEmpty then .success user (some vendorUsers)
          else
            let hasAccess :=
              match req.clientId with
              | some cid =>
                checkVendorUserRole (.list clientRoles) vendorUsers cid user.id
              | none => false
            if !hasAccess then
              .failure (.forbidden (some "You are not allowed to access this resource"))
            else .success user (some vendorUsers)

/-- Embeds `authorize(roles?, clientRoles?, allowPendingClientInvitation)`:
normalize both role arguments, reject at construction time (an `Error`
thrown before any request exists, carried by the `String` error channel)
when tenant roles are configured without the VENDOR global role, and
otherwise return the request handler. -/
def authorize (roles : ArgOpt Role) (clientRoles : ArgOpt VendorRole)
    (allowPendingClientInvitation : Bool) :
    Except String (AuthEnv → Request → AuthResult) :=
  let r := normalizeArg roles
  let cr := normalizeArg clientRoles
  if !r.contains Role.VENDOR && cr.length > 0 then
    .error "Cannot perform authorization of clientRoles when roles does not include \"client\""
  else
    .ok (authorizeHandler r cr allowPendingClientInvitation)

/-- Distinguishes the construction-time throw of `authorize` (a programmer
error, not a request error) from a successful construction. -/
def constructionThrows {α : Type} (r : Except String α) : Bool :=
  match r with
  | .error _ => true
  | .ok _ => false

/-! ### Vendor lifecycle (`services/vendors.ts`) -/

/-- Embeds `VendorRepo.create(name, type, state)` combined with the
settings attachment of `createVendor`: a fresh row with the given columns
(`newId` stands for the generated primary key). -/
def VendorRepoCreate (newId name : JStr) (vtype : VendorType)
    (state : VendorState) (settings : VendorSettings) : Vendor :=
  { id := newId, name := name, type := vtype, state := state,
    settings := settings }

/-- Embeds `createVendor(name, type, settings)`: reject a duplicate name
with Conflict, otherwise create the vendor - the state column passed to
the repository is always `VendorState.NORMAL`, whatever the type. -/
def createVendor (findByName : JStr → Option Vendor) (newId : JStr)
    (name : JStr) (vtype : VendorType) (settings : VendorSettings) :
    Except BoomError Vendor :=
  match findByName name with
  | some _ => .error (.conflict "Vendor with this name already exist")
  | none => .ok (VendorRepoCreate newId name vtype VendorState.NORMAL settings)

/-- Embeds `updateVendorState(vendorId, state)`: the repository overwrites
the state column unconditionally. -/
def updateVendorState (vendor : Vendor) (state : VendorState) : Vendor :=
  { vendor with state := state }

/-! ### Concrete instances for witnesses and counterexamples -/

/-- A concrete stand-in for the keyed HMAC: deterministic and colon-free. -/
def exHmac : JStr → JStr := fun s => natToChars s.length

/-- A concrete stand-in for the deterministic claim serialization of the
reset-password codec. -/
def exSerialize : JStr → Option Int → JStr := fun email d =>
  email ++ '|' :: (match d with | none => [] | some ts => intToChars ts)

/-- A concrete stand-in for the bcrypt digest: deterministic and
colon-free. -/
def exBhash : JStr → JStr := fun s => 'h' :: natToChars s.length

/-- A concrete stand-in for the invitation-claims serialization. -/
def exSerializeInv : InvitationClaims → JStr := fun cl =>
  claimTypeStr cl.type ++ '|' :: cl.userId

/-- A VENDOR identity with an accepted invitation. -/
def exUser : User :=
  { id := "u1".toList, email := "a@b.c".toList, role := .VENDOR,
    invitationAccepted := true }

/-- A VENDOR identity whose email contains a colon. -/
def exColonUser : User :=
  { id := "u1".toList, email := "a:b@c".toList, role := .VENDOR,
    invitationAccepted := true }

/-- A VENDOR identity with a pending invitation. -/
def exPendingUser : User :=
  { id := "u2".toList, email := "p@q.r".toList, role := .VENDOR,
    invitationAccepted := false }

/-- A pending-invitation identity whose email contains a colon. -/
def exColonPendingUser : User :=
  { id := "u3".toList, email := "x:y".toList, role := .VENDOR,
    invitationAccepted := false }

/-- A tenant-scoped request with a well-formed bearer header. -/
def exGateReq : Request :=
  { authorization := some "Bearer tok".toList, clientId := some "t1".toList }

/-- An environment where `exUser` authenticates but holds no membership in
any tenant. -/
def exGateEnvNoMembership : AuthEnv :=
  { verifyAuthToken := fun t =>
      if t = "tok".toList then some { userId := "u1".toList } else none
    findUserById := fun i => if i = "u1".toList then some exUser else none
    findVendorUser := fun _ _ => none
    getUserVendors := fun _ => [] }

/-- A membership of `exUser` in tenant t1 whose invitation is pending. -/
def exPendingMembership : VendorUser :=
  { vendorId := "t1".toList, userId := "u1".toList, role := .ANALYST,
    invitationAccepted := false }

/-- An environment where `exUser` authenticates and holds the pending
membership in tenant t1. -/
def exGateEnvPending : AuthEnv :=
  { exGateEnvNoMembership with
    findVendorUser := fun v u =>
      if v = "t1".toList ∧ u = "u1".toList then some exPendingMembership
      else none }

/-- A membership of `exUser` in tenant t1 with role ANALYST and an
accepted invitation. -/
def exAcceptedMembership : VendorUser :=
  { vendorId := "t1".toList, userId := "u1".toList, role := .ANALYST,
    invitationAccepted := true }

/-- An environment where `exUser` authenticates and holds the accepted
ANALYST membership in tenant t1. -/
def exRoleEnv : AuthEnv :=
  { verifyAuthToken := fun t =>
      if t = "tok".toList then some { userId := "u1".toList } else none
    findUserById := fun i => if i = "u1".toList then some exUser else none
    findVendorUser := fun v u =>
      if v = "t1".toList ∧ u = "u1".toList then some exAcceptedMembership
      else none
    getUserVendors := fun u =>
      if u = "u1".toList then [exAcceptedMembership] else [] }

/-- A reset-password token with embedded expiry 5 and an arbitrary
signature segment. -/
def exExpiredToken : JStr :=
  "e".toList ++ ':' :: (intToChars 5 ++ ':' :: "sig".toList)

/-- A well-formed invitation token whose email matches no identity. -/
def exMissingToken : JStr := "INVITATION:z@w.q:h".toList

/-- Another well-formed invitation token whose email matches no
identity. -/
def exMissingToken2 : JStr := "INVITATION:x@y:h".toList

/-! ## Theorems

First the lemmas about the string and number primitives, then the claim
theorems. -/

theorem jsSplitAux_no_sep (sep : Char) (a : JStr) (h : sep ∉ a) :
    jsSplitAux sep a = (a, []) := by
  induction a with
  | nil => rfl
  | cons c rest ih =>
    simp only [List.mem_cons, not_or] at h
    simp only [jsSplitAux, ih h.2]
    rw [if_neg]
    intro hc
    exact h.1 hc.symm

theorem jsSplitAux_append_sep (sep : Char) (a t : JStr) (h : sep ∉ a) :
    jsSplitAux sep (a ++ sep :: t) =
      (a, (jsSplitAux sep t).1 :: (jsSplitAux sep t).2) := by
  induction a with
  | nil => simp [jsSplitAux]
  | cons c rest ih =>
    simp only [List.mem_cons, not_or] at h
    simp only [List.cons_append, jsSplitAux, List.append_eq]
    rw [if_neg (fun hc => h.1 hc.symm), ih h.2]

/-- Splitting a three-segment token whose segments are separator-free
recovers exactly the three segments. -/
theorem jsSplit_three (sep : Char) (a b c : JStr)
    (ha : sep ∉ a) (hb : sep ∉ b) (hc : sep ∉ c) :
    jsSplit sep (a ++ sep :: (b ++ sep :: c)) = [a, b, c] := by
  simp [jsSplit, jsSplitAux_append_sep sep a _ ha,
    jsSplitAux_append_sep sep b _ hb, jsSplitAux_no_sep sep c hc]

theorem digitsVal_append_single (ds : List Nat) (d : Nat) :
    digitsVal (ds ++ [d]) = 10 * digitsVal ds + d := by
  simp [digitsVal, List.foldl_append]

theorem natDigitsAux_spec (fuel : Nat) :
    ∀ n, n < fuel →
      digitsVal (natDigitsAux fuel n) = n ∧
      natDigitsAux fuel n ≠ [] ∧
      ∀ d ∈ natDigitsAux fuel n, d < 10 := by
  induction fuel with
  | zero => intro n hn; omega
  | succ fuel ih =>
    intro n hn
    by_cases h10 : n < 10
    · refine ⟨?_, ?_, ?_⟩
      · simp [natDigitsAux, h10, digitsVal]
      · simp [natDigitsAux, h10]
      · simp [natDigitsAux, h10]
    · have hpos : 0 < n := by omega
      have hdiv : n / 10 < n := Nat.div_lt_self hpos (by omega)
      have hfuel : n / 10 < fuel := by omega
      obtain ⟨hval, hne, hmem⟩ := ih (n / 10) hfuel
      refine ⟨?_, ?_, ?_⟩
      · simp only [natDigitsAux, if_neg h10]
        rw [digitsVal_append_single, hval]
        omega
      · simp [natDigitsAux, h10]
      · simp only [natDigitsAux, if_neg h10]
        intro d hd
        rcases List.mem_append.mp hd with h | h
        · exact hmem d h
        · simp at h
          omega

theorem digitsVal_natDigits (n : Nat) : digitsVal (natDigits n) = n :=
  (natDigitsAux_spec (n + 1) n (Nat.lt_succ_self n)).1

theorem natDigits_ne_nil (n : Nat) : natDigits n ≠ [] :=
  (natDigitsAux_spec (n + 1) n (Nat.lt_succ_self n)).2.1

theorem natDigits_lt_ten (n : Nat) : ∀ d ∈ natDigits n, d < 10 :=
  (natDigitsAux_spec (n + 1) n (Nat.lt_succ_self n)).2.2

theorem charToDigitVal_digitChar (d : Nat) (h : d < 10) :
    charToDigitVal (digitChar d) = some d := by
  interval_cases d <;> decide

theorem digitChar_ne_colon (d : Nat) (h : d < 10) : digitChar d ≠ ':' := by
  interval_cases d <;> decide

theorem digitChar_ne_minus (d : Nat) (h : d < 10) : digitChar d ≠ '-' := by
  interval_cases d <;> decide

theorem digitChar_ne_plus (d : Nat) (h : d < 10) : digitChar d ≠ '+' := by
  interval_cases d <;> decide

theorem takeDigits_map_digitChar (ds : List Nat) (h : ∀ d ∈ ds, d < 10) :
    takeDigits (ds.map digitChar) = (ds, []) := by
  induction ds with
  | nil => rfl
  | cons d rest ih =>
    have hd : d < 10 := h d (List.mem_cons_self d rest)
    have hrest : ∀ x ∈ rest, x < 10 := fun x hx => h x (List.mem_cons_of_mem d hx)
    simp [takeDigits, charToDigitVal_digitChar d hd, ih hrest]

theorem parseDigits_natToChars (n : Nat) : parseDigits (natToChars n) = some n := by
  rw [parseDigits, natToChars,
    takeDigits_map_digitChar (natDigits n) (natDigits_lt_ten n)]
  obtain ⟨d, ds, hds⟩ := List.exists_cons_of_ne_nil (natDigits_ne_nil n)
  rw [hds]
  show some (digitsVal (d :: ds)) = some n
  rw [← hds, digitsVal_natDigits]

theorem colon_not_mem_natToChars (n : Nat) : ':' ∉ natToChars n := by
  intro hmem
  simp only [natToChars, List.mem_map] at hmem
  obtain ⟨d, hd, hval⟩ := hmem
  exact digitChar_ne_colon d (natDigits_lt_ten n d hd) hval

theorem colon_not_mem_intToChars (i : Int) : ':' ∉ intToChars i := by
  rw [intToChars]
  split
  · intro hmem
    rcases List.mem_cons.mp hmem with h | h
    · exact absurd h.symm (by decide)
    · exact colon_not_mem_natToChars _ h
  · exact colon_not_mem_natToChars _

theorem parseIntJS_natToChars (n : Nat) :
    parseIntJS (natToChars n) = some (n : Int) := by
  obtain ⟨d, ds, hds⟩ := List.exists_cons_of_ne_nil (natDigits_ne_nil n)
  have hd : d < 10 := natDigits_lt_ten n d (hds ▸ List.mem_cons_self d ds)
  have hchars : natToChars n = digitChar d :: ds.map digitChar := by
    rw [natToChars, hds, List.map_cons]
  rw [hchars, parseIntJS]
  rw [if_neg (digitChar_ne_minus d hd), if_neg (digitChar_ne_plus d hd)]
  rw [← List.map_cons, ← hds, ← natToChars, parseDigits_natToChars]
  rfl

theorem parseIntJS_intToChars (i : Int) : parseIntJS (intToChars i) = some i := by
  rw [intToChars]
  by_cases hneg : i < 0
  · rw [if_pos hneg, parseIntJS, if_pos rfl, parseDigits_natToChars]
    show some (-(((-i).toNat : Nat) : Int)) = some i
    congr 1
    omega
  · rw [if_neg hneg, parseIntJS_natToChars]
    congr 1
    exact Int.toNat_of_nonneg (by omega)

theorem colon_not_mem_claimTypeStr : ':' ∉ claimTypeStr ClaimType.INVITATION := by
  decide

/-- Helper for claim C8: the membership role check is true exactly when
some membership matches both ids with an allowed role. -/
theorem checkVendorUserRole_iff (allowedRoles : ArgOpt VendorRole)
    (vendorUsers : List VendorUser) (vendorId userId : JStr) :
    checkVendorUserRole allowedRoles vendorUsers vendorId userId = true ↔
      ∃ vu ∈ vendorUsers, vu.vendorId = vendorId ∧ vu.userId = userId ∧
        vu.role ∈ normalizeArg allowedRoles := by
  rw [checkVendorUserRole]
  simp only [decide_eq_true_eq]
  constructor
  · intro h
    have hne : vendorUsers.filter (fun vendorUser =>
        vendorUser.vendorId == vendorId && vendorUser.userId == userId &&
          (normalizeArg allowedRoles).contains vendorUser.role) ≠ [] := by
      intro hnil
      rw [hnil] at h
      simp at h
    obtain ⟨vu, hvu⟩ := List.exists_mem_of_ne_nil _ hne
    rw [List.mem_filter] at hvu
    refine ⟨vu, hvu.1, ?_⟩
    have := hvu.2
    simp only [Bool.and_eq_true, beq_iff_eq, List.contains_iff_exists_mem_beq] at this
    obtain ⟨⟨h1, h2⟩, r, hr, hbeq⟩ := this
    exact ⟨h1, h2, hbeq ▸ hr⟩
  · rintro ⟨vu, hmem, h1, h2, h3⟩
    have hf : vu ∈ vendorUsers.filter (fun vendorUser =>
        vendorUser.vendorId == vendorId && vendorUser.userId == userId &&
          (normalizeArg allowedRoles).contains vendorUser.role) := by
      rw [List.mem_filter]
      refine ⟨hmem, ?_⟩
      simp only [Bool.and_eq_true, beq_iff_eq, List.contains_iff_exists_mem_beq]
      exact ⟨⟨h1, h2⟩, vu.role, h3, by simp⟩
    exact List.length_pos_of_mem hf

/-! ## Claim theorems -/

/-- C1 (amended): in the tenant invitation-acceptance gate (tenant-scoped
route, VENDOR caller, pending invitations not allowed), a membership found
with a pending invitation yields Forbidden, and a missing membership does
NOT let evaluation continue: the NotFound thrown by the lookup is caught
by the catch-all and the request is rejected with Unauthorized. -/
theorem authorize_tenant_invitation_gate (roles : List Role)
    (clientRoles : List VendorRole) (env : AuthEnv) (req : Request) (t : JStr)
    (claims : AuthClaims) (user : User) (c : JStr)
    (hextract : extractBearerToken req = some t) (htne : t.isEmpty = false)
    (hverify : env.verifyAuthToken t = some claims)
    (hfind : env.findUserById claims.userId = some user)
    (haccepted : user.invitationAccepted = true)
    (hrole : user.role = Role.VENDOR)
    (hcid : req.clientId = some c) (hcne : c.isEmpty = false) :
    (∀ clientUser : VendorUser, env.findVendorUser c user.id = some clientUser →
      clientUser.invitationAccepted = false →
      authorizeHandler roles clientRoles false env req =
        .failure (.forbidden (some "Invitation not accepted yet"))) ∧
    (env.findVendorUser c user.id = none →
      authorizeHandler roles clientRoles false env req =
        .failure (.unauthorized "This token is unauthorized")) := by
  have htruthy : jsTruthy req.clientId = true := by
    rw [hcid, jsTruthy, hcne]; rfl
  have hgetd : req.clientId.getD [] = c := by rw [hcid]; rfl
  constructor
  · intro clientUser hcu hpend
    simp [authorizeHandler, hextract, htne, authorizeTryBlock, hverify, hfind,
      haccepted, hrole, htruthy, hgetd, hcu, hpend]
  · intro hnone
    simp [authorizeHandler, hextract, htne, authorizeTryBlock, hverify, hfind,
      haccepted, hrole, htruthy, hgetd, hnone]

/-- C1 witness: a concrete pending membership in tenant t1 makes the gate
reject with Forbidden. -/
theorem authorize_tenant_invitation_gate_witness :
    authorizeHandler [] [] false exGateEnvPending exGateReq =
      .failure (.forbidden (some "Invitation not accepted yet")) :=
  (authorize_tenant_invitation_gate [] [] exGateEnvPending exGateReq
    "tok".toList { userId := "u1".toList } exUser "t1".toList
    rfl rfl rfl rfl rfl rfl rfl rfl).1 exPendingMembership rfl rfl

/-- C1 counterexample: with no membership for (t1, u1) and no role checks
configured, the claim predicts that the gate does not reject and
evaluation continues (which here would succeed); the code instead rejects
the request with Unauthorized. -/
theorem authorize_tenant_gate_missing_membership_rejects :
    exGateEnvNoMembership.findVendorUser "t1".toList exUser.id = none ∧
    exUser.invitationAccepted = true ∧
    exUser.role = Role.VENDOR ∧
    authorizeHandler [] [] false exGateEnvNoMembership exGateReq =
      .failure (.unauthorized "This token is unauthorized") :=
  ⟨rfl, rfl, rfl, rfl⟩

/-- C2: for every identity that passes the credential and invitation
gates, a non-empty configured allowed-roles list not containing its global
role yields Forbidden; an empty list passes every authenticated identity;
in particular, allowed roles (ADMIN) reject every VENDOR identity even
with no tenant-role check configured. -/
theorem authorize_global_role_check (roles : List Role)
    (clientRoles : List VendorRole) (allowPending : Bool) (env : AuthEnv)
    (req : Request) (t : JStr) (user : User)
    (hextract : extractBearerToken req = some t) (htne : t.isEmpty = false)
    (htry : authorizeTryBlock allowPending env req t = .ok user) :
    (roles ≠ [] → user.role ∉ roles →
      authorizeHandler roles clientRoles allowPending env req =
        .failure (.forbidden none)) ∧
    (roles = [] →
      authorizeHandler roles clientRoles allowPending env req =
        .success user none) ∧
    (user.role = Role.VENDOR →
      authorizeHandler [Role.ADMIN] clientRoles allowPending env req =
        .failure (.forbidden none)) := by
  refine ⟨?_, ?_, ?_⟩
  · intro hne hnotmem
    have hempty : roles.isEmpty = false := by
      cases roles with
      | nil => exact absurd rfl hne
      | cons a l => rfl
    simp [authorizeHandler, hextract, htne, htry, hempty, hnotmem]
  · intro hnil
    simp [authorizeHandler, hextract, htne, htry, hnil]
  · intro hrole
    have hne : ¬ (Role.ADMIN = user.role) := by
      rw [hrole]; intro h; cases h
    simp [authorizeHandler, hextract, htne, htry, hrole, hne]

/-- C2 witness: a concrete VENDOR identity against allowed roles (ADMIN)
with no tenant-role check is rejected with Forbidden. -/
theorem authorize_global_role_check_witness :
    authorizeHandler [Role.ADMIN] [] false exRoleEnv exGateReq =
      .failure (.forbidden none) :=
  (authorize_global_role_check [Role.ADMIN] [] false exRoleEnv exGateReq
    "tok".toList exUser rfl rfl rfl).1 (by decide) (by decide)

/-- C3 (amended): for every user whose email contains no colon (and with
a colon-free signature, as the hex HMAC digest always is), verifying the
generated reset-password token before the embedded expiry succeeds and
returns a claim carrying exactly the email of the user. -/
theorem resetPasswordToken_roundtrip (hmac : JStr → JStr)
    (serialize : JStr → Option Int → JStr) (now ttl verifyTime : Int)
    (user : User)
    (hemail : ':' ∉ user.email)
    (hsig : ':' ∉ hmac (serialize user.email (some (now + ttl))))
    (htime : verifyTime < now + ttl) :
    verifyResetPasswordToken hmac serialize verifyTime
      (generateResetPasswordToken hmac serialize now ttl user) =
      .ok { email := user.email, expiry := some (now + ttl) } := by
  have hsplit := jsSplit_three ':' user.email (intToChars (now + ttl))
    (hmac (serialize user.email (some (now + ttl)))) hemail
    (colon_not_mem_intToChars _) hsig
  have hnotlt : ¬ (now + ttl < verifyTime) := by omega
  simp [verifyResetPasswordToken, generateResetPasswordToken, hsplit,
    parseIntJS_intToChars, jsDateLt, hnotlt]

/-- C3 witness: a concrete round-trip 500 ms into a 600 ms window
succeeds and returns the email of the user. -/
theorem resetPasswordToken_roundtrip_witness :
    verifyResetPasswordToken exHmac exSerialize 500
      (generateResetPasswordToken exHmac exSerialize 400 600 exUser) =
      .ok { email := exUser.email, expiry := some 1000 } :=
  resetPasswordToken_roundtrip exHmac exSerialize 400 600 500 exUser
    (by decide) (by decide) (by decide)

/-- C3 counterexample: for a user whose email contains a colon the token
splits into more than three parts, so verification fails within the TTL
window and the round-trip of the claim does not hold for every user. -/
theorem resetPasswordToken_roundtrip_colon_email_fails :
    verifyResetPasswordToken exHmac exSerialize 500
      (generateResetPasswordToken exHmac exSerialize 400 600 exColonUser) =
      .error (.unauthorized "Token is not valid") :=
  rfl

/-- C4 (amended): verification fails with Unauthorized whenever the
embedded expiry is strictly before the current time - but equality of
current time and expiry counts as NOT expired, since the code only rejects
on `expiryDate < now`. -/
theorem verifyResetPasswordToken_expired (hmac : JStr → JStr)
    (serialize : JStr → Option Int → JStr) (now : Int) (token : JStr)
    (e : Int) (hembed : embeddedExpiry token = some e) (hlt : e < now) :
    verifyResetPasswordToken hmac serialize now token =
      .error (.unauthorized "Token is not valid") := by
  rw [embeddedExpiry] at hembed
  by_cases h3 : (jsSplit ':' token).length = 3
  · rw [if_pos h3] at hembed
    obtain ⟨a, b, c, habc⟩ := List.length_eq_three.mp h3
    rw [habc] at hembed
    simp only [List.drop_succ_cons, List.drop_zero, List.headD_cons] at hembed
    simp [verifyResetPasswordToken, habc, hembed, jsDateLt, hlt]
  · rw [if_neg h3] at hembed
    exact absurd hembed (by simp)

/-- C4 witness: a concrete token with embedded expiry 5 verified at time
10 is rejected with Unauthorized. -/
theorem verifyResetPasswordToken_expired_witness :
    embeddedExpiry exExpiredToken = some 5 ∧
    verifyResetPasswordToken exHmac exSerialize 10 exExpiredToken =
      .error (.unauthorized "Token is not valid") :=
  ⟨by decide,
    verifyResetPasswordToken_expired exHmac exSerialize 10 exExpiredToken 5
      (by decide) (by decide)⟩

/-- C4 counterexample: a correctly signed token whose embedded expiry
equals the current time verifies successfully, so it is false that
verification fails whenever the current time is not strictly before the
expiry. -/
theorem verifyResetPasswordToken_at_expiry_succeeds :
    embeddedExpiry
      (generateResetPasswordToken exHmac exSerialize 400 600 exUser) =
      some 1000 ∧
    verifyResetPasswordToken exHmac exSerialize 1000
      (generateResetPasswordToken exHmac exSerialize 400 600 exUser) =
      .ok { email := exUser.email, expiry := some 1000 } :=
  ⟨rfl, rfl⟩

/-- C5 (amended): for every user whose email contains no colon (and with
a colon-free bcrypt digest, as real bcrypt digests are), an invitation
token issued while the invitationAccepted flag of the user is false
verifies successfully, and once the flag becomes true the very same
unchanged token is rejected with Conflict; verification takes no clock
input, so the flag is the sole revocation mechanism. -/
theorem invitationToken_accept_revokes (bhash : JStr → JStr)
    (serializeInv : InvitationClaims → JStr) (user : User)
    (findByEmail findByEmailAfter : JStr → Option User)
    (hemail : ':' ∉ user.email)
    (hdigest : ':' ∉ bhash (serializeInv
      { type := .INVITATION, userId := user.id, role := user.role }))
    (hpending : user.invitationAccepted = false)
    (hfind : findByEmail user.email = some user)
    (hfindAfter : findByEmailAfter user.email =
      some { user with invitationAccepted := true }) :
    authorizeInvitation bhash serializeInv findByEmail
        (some (generateInvitationToken bhash serializeInv user)) = .ok user ∧
    authorizeInvitation bhash serializeInv findByEmailAfter
        (some (generateInvitationToken bhash serializeInv user)) =
      .error (.conflict "Invitation already accepted") := by
  have hsplit := jsSplit_three ':' (claimTypeStr ClaimType.INVITATION)
    user.email
    (bhash (serializeInv
      { type := .INVITATION, userId := user.id, role := user.role }))
    colon_not_mem_claimTypeStr hemail hdigest
  constructor
  · simp [authorizeInvitation, generateInvitationToken, hsplit, hfind, hpending]
  · simp [authorizeInvitation, generateInvitationToken, hsplit, hfindAfter]

/-- C5 witness: the concrete pending user round-trips, and after flipping
the acceptance flag the same token yields Conflict. -/
theorem invitationToken_accept_revokes_witness :
    authorizeInvitation exBhash exSerializeInv
        (fun e => if e = exPendingUser.email then some exPendingUser else none)
        (some (generateInvitationToken exBhash exSerializeInv exPendingUser)) =
      .ok exPendingUser ∧
    authorizeInvitation exBhash exSerializeInv
        (fun e => if e = exPendingUser.email then
          some { exPendingUser with invitationAccepted := true } else none)
        (some (generateInvitationToken exBhash exSerializeInv exPendingUser)) =
      .error (.conflict "Invitation already accepted") :=
  invitationToken_accept_revokes exBhash exSerializeInv exPendingUser
    (fun e => if e = exPendingUser.email then some exPendingUser else none)
    (fun e => if e = exPendingUser.email then
      some { exPendingUser with invitationAccepted := true } else none)
    (by decide) (by decide) rfl rfl rfl

/-- C5 counterexample: for a pending user whose email contains a colon,
the freshly issued invitation token splits into more than three parts and
verification fails with Unauthorized instead of succeeding, so the claim
does not hold for every user. -/
theorem invitationToken_colon_email_fails :
    exColonPendingUser.invitationAccepted = false ∧
    authorizeInvitation exBhash exSerializeInv
      (fun e => if e = exColonPendingUser.email then some exColonPendingUser
        else none)
      (some (generateInvitationToken exBhash exSerializeInv exColonPendingUser)) =
      .error (.unauthorized "Token is not valid") :=
  ⟨rfl, rfl⟩

/-- C6 (amended): for every three-part invitation token whose embedded
email matches no identity, verification fails with the NotFound error of
the identity lookup, forwarded unchanged by the catch of the middleware
(not converted to Unauthorized). -/
theorem authorizeInvitation_missing_user (bhash : JStr → JStr)
    (serializeInv : InvitationClaims → JStr) (findByEmail : JStr → Option User)
    (t : JStr) (h3 : (jsSplit ':' t).length = 3)
    (hmiss : findByEmail (((jsSplit ':' t).drop 1).headD []) = none) :
    authorizeInvitation bhash serializeInv findByEmail (some t) =
      .error (.notFound "User with this email does not exist") := by
  obtain ⟨a, b, c, habc⟩ := List.length_eq_three.mp h3
  rw [habc] at hmiss
  simp only [List.drop_succ_cons, List.drop_zero, List.headD_cons] at hmiss
  simp [authorizeInvitation, habc, hmiss]

/-- C6 witness: a concrete well-formed token over an empty identity store
fails with NotFound. -/
theorem authorizeInvitation_missing_user_witness :
    authorizeInvitation exBhash exSerializeInv (fun _ => none)
      (some exMissingToken) =
      .error (.notFound "User with this email does not exist") :=
  authorizeInvitation_missing_user exBhash exSerializeInv (fun _ => none)
    exMissingToken (by decide) rfl

/-- C6 counterexample: on a concrete three-part token with no matching
identity the result is the NotFound error, which is not of the
Unauthorized class, so the claim that verification fails with Unauthorized
is false. -/
theorem authorizeInvitation_missing_user_not_unauthorized :
    authorizeInvitation exBhash exSerializeInv (fun _ => none)
      (some exMissingToken2) =
      .error (.notFound "User with this email does not exist") ∧
    (BoomError.notFound "User with this email does not exist").isUnauthorized =
      false :=
  ⟨rfl, rfl⟩

/-- C7: constructing the middleware throws a programmer error exactly when
the normalized tenant-role list is non-empty while the normalized global
role list excludes VENDOR; every other configuration (including the
default empty global-role list together with no tenant roles) constructs
successfully. -/
theorem authorize_construction_check (roles : ArgOpt Role)
    (clientRoles : ArgOpt VendorRole) (allowPending : Bool) :
    constructionThrows (authorize roles clientRoles allowPending) = true ↔
      (Role.VENDOR ∉ normalizeArg roles ∧ normalizeArg clientRoles ≠ []) := by
  rw [authorize]
  by_cases hv : Role.VENDOR ∈ normalizeArg roles
  · simp [constructionThrows, hv]
  · by_cases hc : normalizeArg clientRoles = []
    · simp [constructionThrows, hv, hc]
    · have hlen : (normalizeArg clientRoles).length > 0 := by
        cases h : normalizeArg clientRoles with
        | nil => exact absurd h hc
        | cons a l => simp
      simp [constructionThrows, hv, hc, hlen]

/-- C8: the pure role check is true exactly when some membership matches
the tenant id and user id with a role in the normalized allowed list; and
in the end-to-end scenario - VENDOR identity u1 with an accepted ANALYST
membership in tenant t1, allowed global roles (VENDOR), allowed tenant
roles (ADMIN) - the middleware rejects with Forbidden. -/
theorem checkVendorUserRole_spec :
    (∀ (allowedRoles : ArgOpt VendorRole) (vendorUsers : List VendorUser)
      (vendorId userId : JStr),
      checkVendorUserRole allowedRoles vendorUsers vendorId userId = true ↔
        ∃ vu ∈ vendorUsers, vu.vendorId = vendorId ∧ vu.userId = userId ∧
          vu.role ∈ normalizeArg allowedRoles) ∧
    authorizeHandler [Role.VENDOR] [VendorRole.ADMIN] false exRoleEnv
        exGateReq =
      .failure (.forbidden (some "You are not allowed to access this resource")) :=
  ⟨checkVendorUserRole_iff, rfl⟩

/-- C9: evaluating `createVendor` at an EXTERNAL tenant shows the created
state is NORMAL, not SUBSCRIPTION_REQUIRED, although the state enum in
`models/enums.ts` documents that EXTERNAL clients must acquire
SUBSCRIPTION_REQUIRED initially - the code contradicts its own
documentation. -/
theorem createVendor_external_initial_state :
    createVendor (fun _ => none) "v1".toList "acme".toList
        VendorType.EXTERNAL ⟨5, 5⟩ =
      .ok { id := "v1".toList, name := "acme".toList,
            type := VendorType.EXTERNAL, state := VendorState.NORMAL,
            settings := ⟨5, 5⟩ } ∧
    VendorState.NORMAL ≠ VendorState.SUBSCRIPTION_REQUIRED :=
  ⟨rfl, by decide⟩

end MvEcom
